import Mathlib

/-!
Verification of the Exam Attempt Lifecycle & Auto-Grading Engine
(AttemptService / ExamService of a Hono+Drizzle exam backend).

The database is modelled as in-memory lists of rows, one list per table,
kept in insertion order; a Drizzle `select ... limit 1` becomes
`List.find?` (the first matching row), `update ... where` maps the
matching rows, `insert` appends a row with the next serial id.
Timestamps are natural numbers supplied by the caller as `now`.
Numeric SQL values are `Int` (the relevant columns are `integer`).
`Math.round x` in JS is exactly `⌊x + 1/2⌋`.  The rounded percentage,
a 2-decimal value, is carried as an exact integer count of hundredths
(`pct100`), proved equal to the source's rational formula by
`pct100_eq_round2`; theorems about the percentage are stated in `ℚ`
through that lemma.  JS computes these in IEEE doubles; the model, like
the spec's formulas, uses exact arithmetic.

JavaScript's default `Array.sort()` orders numbers by their decimal
string; since the grading code only tests *equality* of the two sorted
arrays, and equality of sorted lists under any fixed total order is
multiset equality, we model the sort with a numeric insertion sort:
the grading outcome is identical.
-/

/-- Question types, from the `question_type` enum of the schema. -/
inductive QuestionType
  | multiple_choice
  | true_false
  | multiple_answer
  | essay
  | fill_blank
deriving Repr, DecidableEq

/-- Attempt statuses, from the `attempt_status` enum of the schema. -/
inductive AttemptStatus
  | in_progress
  | completed
  | grading
  | abandoned
deriving Repr, DecidableEq

/-- The `show_answers_after` enum of the schema. -/
inductive ShowAnswersAfter
  | immediately
  | after_submit
  | never
deriving Repr, DecidableEq

/-- A row of the `exams` table (the columns the attempt engine reads).
`deleted` models a non-null `deletedAt`. -/
structure Exam where
  id : Nat
  isPublished : Bool
  passingScore : Int
  totalPoints : Int
  totalQuestions : Int
  duration : Option Nat
  attemptsAllowed : Option Nat
  randomizeQuestions : Bool
  showAnswersAfter : ShowAnswersAfter
  deleted : Bool
deriving Repr, DecidableEq

/-- A row of the `questions` table (columns the engine reads or writes). -/
structure Question where
  id : Nat
  questionType : QuestionType
  points : Int
  deleted : Bool
  usageCount : Int
  correctAnswerCount : Int
  totalAnswerCount : Int
deriving Repr, DecidableEq

/-- A row of the `question_options` table. -/
structure QuestionOption where
  id : Nat
  questionId : Nat
  isCorrect : Bool
  order : Int
deriving Repr, DecidableEq

/-- A row of the `exam_questions` junction table. -/
structure ExamQuestion where
  id : Nat
  examId : Nat
  questionId : Nat
  order : Int
  points : Int
  isRequired : Bool
deriving Repr, DecidableEq

/-- A row of the `exam_attempts` table. -/
structure ExamAttempt where
  id : Nat
  examId : Nat
  userId : Nat
  status : AttemptStatus
  startedAt : Nat
  completedAt : Option Nat
  submittedAt : Option Nat
  duration : Option Nat
  score : Option Int
    -- the decimal(5,2) score column holds the 2-decimal percentage; it is
    -- represented exactly as an integer count of hundredths (see pct100)
  totalPoints : Int
  maxPoints : Int
  correctAnswers : Int
  incorrectAnswers : Int
  unansweredQuestions : Int
  isPassed : Option Bool
  timeRemaining : Option Nat
  currentQuestionIndex : Nat
  metadata : Option String
deriving Repr, DecidableEq

/-- A row of the `user_answers` table. -/
structure UserAnswer where
  id : Nat
  attemptId : Nat
  questionId : Nat
  selectedOptionId : Option Nat
  selectedOptionIds : Option (List Nat)
  textAnswer : Option String
  isCorrect : Option Bool
  pointsAwarded : Int
  timeSpent : Nat
  markedForReview : Bool
  answeredAt : Option Nat
deriving Repr, DecidableEq

/-- The database: one list of rows per table, in insertion order, plus
the next value of each serial id sequence the engine allocates from. -/
structure DB where
  exams : List Exam
  questions : List Question
  questionOptions : List QuestionOption
  examQuestions : List ExamQuestion
  examAttempts : List ExamAttempt
  userAnswers : List UserAnswer
  nextExamQuestionId : Nat
  nextAttemptId : Nat
  nextAnswerId : Nat
deriving Repr, DecidableEq

/-- JavaScript `Math.round`: floor of x + 1/2. -/
def jsRound (q : ℚ) : ℤ := ⌊q + 1/2⌋

/-- The source's `Math.round(percentage * 100) / 100` (2 decimal places). -/
def round2 (q : ℚ) : ℚ := (jsRound (q * 100) : ℚ) / 100

/-- The rounded percentage, carried as an exact integer count of
hundredths of a percent — the value the source renders with 2 decimal
places (and stores in the `decimal(5,2)` score column) is exactly
`pct100 / 100`.  For positive `maxPoints` this integer floor division
equals `jsRound (totalPoints / maxPoints * 100 * 100)`; `pct100_eq_round2`
below proves the representation faithful to the source formula. -/
def pct100 (totalPoints maxPoints : Int) : Int :=
  if maxPoints > 0 then (20000 * totalPoints + maxPoints) / (2 * maxPoints) else 0

/-- Numeric sort standing in for JS `Array.sort()`; see the header note:
only equality of the sorted arrays is ever observed, which is the same
Boolean under any fixed total order. -/
def sortNat (l : List Nat) : List Nat := List.insertionSort (· ≤ ·) l

/-- Result of `AttemptService.autoGradeAnswer`. -/
structure GradeResult where
  isCorrect : Option Bool
  pointsAwarded : Int
  needsManualGrading : Bool
deriving Repr, DecidableEq

/-- The correct options of a question, as the source queries them:
rows of `question_options` with this `questionId` and `isCorrect`. -/
def correctOptionsOf (db : DB) (questionId : Nat) : List QuestionOption :=
  db.questionOptions.filter (fun o => o.questionId == questionId && o.isCorrect)

/-- `AttemptService.autoGradeAnswer`.  Note two details taken verbatim
from the source: the `exam_questions` row supplying the point value is
looked up by `questionId` alone — `limit 1`, with no exam filter — and
the point value goes through the JS fallback `examQuestion?.points || 1`,
under which a stored value of 0 (falsy) becomes 1. -/
def autoGradeAnswer (db : DB) (questionType : QuestionType) (questionId : Nat)
    (selectedOptionId : Option Nat) (selectedOptionIds : Option (List Nat))
    (_textAnswer : Option String) : GradeResult :=
  if questionType = .essay ∨ questionType = .fill_blank then
    ⟨none, 0, true⟩
  else
    let correctOptions := correctOptionsOf db questionId
    let examQuestion := db.examQuestions.find? (fun q => q.questionId == questionId)
    let points : Int :=
      match examQuestion with
      | some q => if q.points = 0 then 1 else q.points
      | none => 1
    if questionType = .multiple_choice ∨ questionType = .true_false then
      match selectedOptionId with
      | none => ⟨some false, 0, false⟩
      | some oid =>
        let isCorrect := correctOptions.any (fun o => o.id == oid)
        ⟨some isCorrect, if isCorrect then points else 0, false⟩
    else if questionType = .multiple_answer then
      match selectedOptionIds with
      | none => ⟨some false, 0, false⟩
      | some sel =>
        if sel = [] then ⟨some false, 0, false⟩
        else
          let correctIds := sortNat (correctOptions.map (·.id))
          let selectedIds := sortNat sel
          let isCorrect := correctIds = selectedIds
          ⟨some (decide isCorrect), if isCorrect then points else 0, false⟩
    else
      ⟨none, 0, true⟩

/-- Input of `AttemptService.submitAnswer` (`SubmitAnswerData`). -/
structure SubmitAnswerData where
  attemptId : Nat
  questionId : Nat
  selectedOptionId : Option Nat := none
  selectedOptionIds : Option (List Nat) := none
  textAnswer : Option String := none
  timeSpent : Option Nat := none
  markedForReview : Option Bool := none
deriving Repr, DecidableEq

/-- Return value of `AttemptService.submitAnswer`. -/
structure SubmitAnswerResult where
  answer : UserAnswer
  isCorrect : Option Bool
  needsManualGrading : Bool
deriving Repr, DecidableEq

/-- The JS coalescing `textAnswer || null`: an empty string is falsy and
is stored as null. -/
def strOrNull (s : Option String) : Option String :=
  match s with
  | some t => if t = "" then none else some t
  | none => none

/-- `AttemptService.updateQuestionStats`: atomic counter increments on the
question row (usage, total answers, and correct answers when correct). -/
def updateQuestionStats (db : DB) (questionId : Nat) (isCorrect : Bool) : DB :=
  { db with
    questions := db.questions.map (fun q =>
      if q.id == questionId then
        { q with
          usageCount := q.usageCount + 1
          totalAnswerCount := q.totalAnswerCount + 1
          correctAnswerCount := if isCorrect then q.correctAnswerCount + 1 else q.correctAnswerCount }
      else q) }

/-- The grade computed inside `submitAnswer` for submission `d` against
question row `question` (the call to `autoGradeAnswer` on line 257 of the
service, with the submission's fields spread in). -/
def gradeOf (db : DB) (question : Question) (d : SubmitAnswerData) : GradeResult :=
  autoGradeAnswer db question.questionType d.questionId
    d.selectedOptionId d.selectedOptionIds d.textAnswer

/-- The `answerData` record written by `submitAnswer`, together with the
row id it is stored under.  The JS falsy coalescings are explicit:
`textAnswer || null` empties "", `timeSpent || 0` and
`markedForReview || false` default the optionals. -/
def answerRow (db : DB) (now : Nat) (d : SubmitAnswerData) (question : Question)
    (rowId : Nat) : UserAnswer :=
  { id := rowId
    attemptId := d.attemptId
    questionId := d.questionId
    selectedOptionId := d.selectedOptionId
    selectedOptionIds := d.selectedOptionIds
    textAnswer := strOrNull d.textAnswer
    isCorrect := (gradeOf db question d).isCorrect
    pointsAwarded := (gradeOf db question d).pointsAwarded
    timeSpent := d.timeSpent.getD 0
    markedForReview := d.markedForReview.getD false
    answeredAt := some now }

/-- The statistics side effect of `submitAnswer`: the counters are bumped
only when the grade carried a verdict (`isCorrect !== null`). -/
def applyStats (db1 : DB) (questionId : Nat) (g : GradeResult) : DB :=
  match g.isCorrect with
  | some b => updateQuestionStats db1 questionId b
  | none => db1

/-- `AttemptService.submitAnswer`: verifies the attempt exists and is in
progress, the question exists, and the question is bound to the attempt's
exam; auto-grades; then updates the existing `(attemptId, questionId)`
answer row if one exists, else inserts a new one; finally bumps the
question statistics when the answer was auto-graded. -/
def submitAnswer (db : DB) (now : Nat) (d : SubmitAnswerData) :
    Except String (DB × SubmitAnswerResult) :=
  match db.examAttempts.find? (fun a => a.id == d.attemptId) with
  | none => .error "Attempt not found"
  | some attempt =>
    if attempt.status ≠ .in_progress then
      .error "Cannot submit answer for completed or abandoned attempt"
    else
      match db.questions.find? (fun q => q.id == d.questionId) with
      | none => .error "Question not found"
      | some question =>
        match db.examQuestions.find?
            (fun q => q.examId == attempt.examId && q.questionId == d.questionId) with
        | none => .error "Question not part of this exam"
        | some _examQuestion =>
          match db.userAnswers.find?
              (fun a => a.attemptId == d.attemptId && a.questionId == d.questionId) with
          | some ex =>
            .ok
              (applyStats
                { db with userAnswers := db.userAnswers.map (fun a =>
                    if a.id == ex.id then answerRow db now d question ex.id else a) }
                d.questionId (gradeOf db question d),
               ⟨answerRow db now d question ex.id, (gradeOf db question d).isCorrect,
                (gradeOf db question d).needsManualGrading⟩)
          | none =>
            .ok
              (applyStats
                { db with
                  userAnswers := db.userAnswers ++ [answerRow db now d question db.nextAnswerId]
                  nextAnswerId := db.nextAnswerId + 1 }
                d.questionId (gradeOf db question d),
               ⟨answerRow db now d question db.nextAnswerId, (gradeOf db question d).isCorrect,
                (gradeOf db question d).needsManualGrading⟩)

/-- Return value of `AttemptService.calculateScore`. -/
structure ScoreResult where
  totalQuestions : Nat
  correctAnswers : Int
  incorrectAnswers : Int
  unansweredQuestions : Int
  needsGrading : Int
  totalPoints : Int
  maxPoints : Int
  percentage100 : Int
deriving Repr, DecidableEq

/-- `AttemptService.calculateScore`: sums the exam's binding points into
`maxPoints`, buckets the stored answers by `isCorrect ∈ {true, false, null}`,
sums `pointsAwarded` over the correct ones, and renders the percentage
(0 when `maxPoints` is not positive, else rounded to 2 decimals). -/
def calculateScore (db : DB) (attemptId : Nat) : Except String ScoreResult :=
  match db.examAttempts.find? (fun a => a.id == attemptId) with
  | none => .error "Attempt not found"
  | some attempt =>
    let examQuestionsList := db.examQuestions.filter (fun q => q.examId == attempt.examId)
    let totalQuestions := examQuestionsList.length
    let maxPoints : Int := (examQuestionsList.map (·.points)).sum
    let answers := db.userAnswers.filter (fun a => a.attemptId == attemptId)
    let correctAnswers : Int := (answers.filter (fun a => a.isCorrect == some true)).length
    let incorrectAnswers : Int := (answers.filter (fun a => a.isCorrect == some false)).length
    let needsGrading : Int := (answers.filter (fun a => a.isCorrect == none)).length
    let totalPoints : Int :=
      ((answers.filter (fun a => a.isCorrect == some true)).map (·.pointsAwarded)).sum
    let unansweredQuestions : Int := (totalQuestions : Int) - (answers.length : Int)
    .ok
      { totalQuestions := totalQuestions
        correctAnswers := correctAnswers
        incorrectAnswers := incorrectAnswers
        unansweredQuestions := unansweredQuestions
        needsGrading := needsGrading
        totalPoints := totalPoints
        maxPoints := maxPoints
        percentage100 := pct100 totalPoints maxPoints }

/-- Return value of `AttemptService.submitExam`. -/
structure SubmitExamResult where
  attempt : ExamAttempt
  score : ScoreResult
  isPassed : Bool
  status : AttemptStatus
deriving Repr, DecidableEq

/-- `AttemptService.submitExam`: requires the attempt to exist and be in
progress, aggregates the score, derives the final status (`grading` when
anything is unanswered or pending manual grading, else `completed`),
derives pass/fail from the percentage, and persists it all on the
attempt row. -/
def submitExam (db : DB) (now : Nat) (attemptId : Nat) :
    Except String (DB × SubmitExamResult) :=
  match db.examAttempts.find? (fun a => a.id == attemptId) with
  | none => .error "Attempt not found"
  | some attempt =>
    if attempt.status ≠ .in_progress then
      .error "Attempt already submitted"
    else
      match db.exams.find? (fun e => e.id == attempt.examId) with
      | none => .error "Exam not found"
      | some exam =>
        match calculateScore db attemptId with
        | .error e => .error e
        | .ok scoreResult =>
          let duration := (now - attempt.startedAt) / 1000
          let hasSubjectiveQuestions :=
            scoreResult.unansweredQuestions > 0 ∨ scoreResult.needsGrading > 0
          let finalStatus : AttemptStatus :=
            if hasSubjectiveQuestions then .grading else .completed
          let isPassed := scoreResult.percentage100 ≥ 100 * exam.passingScore
          let updated : ExamAttempt :=
            { attempt with
              status := finalStatus
              completedAt := some now
              submittedAt := some now
              duration := some duration
              score := some scoreResult.percentage100
              totalPoints := scoreResult.totalPoints
              correctAnswers := scoreResult.correctAnswers
              incorrectAnswers := scoreResult.incorrectAnswers
              unansweredQuestions := scoreResult.unansweredQuestions
              isPassed := some (decide isPassed) }
          let db' := { db with
            examAttempts := db.examAttempts.map (fun a =>
              if a.id == attemptId then updated else a) }
          .ok (db', ⟨updated, scoreResult, decide isPassed, finalStatus⟩)

/-- The join built by `getExamQuestionsForAttempt`: bindings of the exam
paired with their (non-soft-deleted) question rows.  The presentation
order (binding order, or `RANDOM()` when the exam randomizes) is
abstracted away: no verified property depends on it. -/
def examQuestionsForAttempt (db : DB) (examId : Nat) : List (ExamQuestion × Question) :=
  (db.examQuestions.filter (fun q => q.examId == examId)).filterMap
    (fun b => (db.questions.find? (fun q => q.id == b.questionId && !q.deleted)).map
      (fun q => (b, q)))

/-- Return value of `AttemptService.startAttempt`. -/
structure StartAttemptResult where
  attempt : ExamAttempt
  exam : Exam
  totalQuestions : Nat
deriving Repr, DecidableEq

/-- The attempts-limit check inside `startAttempt`: when `attemptsAllowed`
is set and the count of this user's `completed` attempts on the exam has
reached it, returns the limit (to interpolate into the error message). -/
def attemptLimitHit (db : DB) (examData : Exam) (examId userId : Nat) : Option Nat :=
  match examData.attemptsAllowed with
  | some allowed =>
    if (db.examAttempts.filter (fun a =>
        a.examId == examId && a.userId == userId &&
          decide (a.status = AttemptStatus.completed))).length ≥ allowed
    then some allowed else none
  | none => none

/-- The attempt row inserted by startAttempt. -/
def newAttempt (db : DB) (now examId userId : Nat) (metadata : Option String)
    (examData : Exam) : ExamAttempt :=
  { id := db.nextAttemptId
    examId := examId
    userId := userId
    status := .in_progress
    startedAt := now
    completedAt := none
    submittedAt := none
    duration := none
    score := none
    totalPoints := 0
    maxPoints := examData.totalPoints
    correctAnswers := 0
    incorrectAnswers := 0
    unansweredQuestions := 0
    isPassed := none
    timeRemaining :=
      match examData.duration with
      | some dur => if dur = 0 then none else some (dur * 60)
      | none => none
    currentQuestionIndex := 0
    metadata := metadata }

/-- `AttemptService.startAttempt`: requires a live published exam with at
least one binding and, when `attemptsAllowed` is set, strictly fewer
prior `completed` attempts by this user than the limit; then inserts an
`in_progress` attempt whose `maxPoints` is the exam row's denormalized
`totalPoints` and whose `timeRemaining` is `duration * 60` (the JS
`duration ? duration * 60 : null` — a 0 duration is falsy and yields
null). -/
def startAttempt (db : DB) (now : Nat) (examId userId : Nat) (metadata : Option String) :
    Except String (DB × StartAttemptResult) :=
  match db.exams.find? (fun e => e.id == examId && !e.deleted) with
  | none => .error "Exam not found"
  | some examData =>
    if !examData.isPublished then
      .error "Exam is not published yet"
    else if (db.examQuestions.filter (fun q => q.examId == examId)).length = 0 then
      .error "Exam has no questions"
    else
      match attemptLimitHit db examData examId userId with
      | some allowed =>
        .error s!"Maximum attempts ({allowed}) reached for this exam"
      | none =>
        .ok
          ({ db with
             examAttempts := db.examAttempts ++ [newAttempt db now examId userId metadata examData]
             nextAttemptId := db.nextAttemptId + 1 },
           ⟨newAttempt db now examId userId metadata examData, examData,
            (examQuestionsForAttempt db examId).length⟩)

/-- One element of the answers list assembled by `getAttemptById`: the
answer row together with its left-joined question row and left-joined
selected option row. -/
structure AnswerDetail where
  answer : UserAnswer
  question : Option Question
  selectedOption : Option QuestionOption
deriving Repr, DecidableEq

/-- Return value of `AttemptService.getAttemptById`: the attempt spread
together with its exam and the detailed answers. -/
structure AttemptDetails where
  attempt : ExamAttempt
  exam : Option Exam
  answers : List AnswerDetail
deriving Repr, DecidableEq

/-- `AttemptService.getAttemptById`.  Neither the exam lookup nor the
question join filters by soft deletion here, faithfully to the source;
the selected-option left join matches on `selectedOptionId`. -/
def getAttemptById (db : DB) (id : Nat) : Option AttemptDetails :=
  match db.examAttempts.find? (fun a => a.id == id) with
  | none => none
  | some attempt =>
    let exam := db.exams.find? (fun e => e.id == attempt.examId)
    let answers := (db.userAnswers.filter (fun a => a.attemptId == id)).map (fun a =>
      { answer := a
        question := db.questions.find? (fun q => q.id == a.questionId)
        selectedOption :=
          match a.selectedOptionId with
          | some oid => db.questionOptions.find? (fun o => o.id == oid)
          | none => none })
    some ⟨attempt, exam, answers⟩

/-- One element of the `questions` list of `getAttemptResults`, present
only when the visibility policy allows revealing answers. -/
structure QuestionWithAnswers where
  question : Question
  order : Int
  points : Int
  options : List QuestionOption
  userAnswer : Option AnswerDetail
deriving Repr, DecidableEq

/-- Return value of `AttemptService.getAttemptResults`. -/
structure ResultsView where
  attempt : AttemptDetails
  exam : Exam
  showAnswers : Bool
  questions : List QuestionWithAnswers
deriving Repr, DecidableEq

/-- `AttemptService.getAttemptResults`: loads the attempt with its
answers, re-checks ownership, computes the visibility decision
(`immediately`, or `after_submit` with a completed attempt), and only
when visible assembles the per-question view with the full option lists
(including each option's `isCorrect`) and the user's answer.  The
`userAnswersMap` of the source keeps the last answer per question id. -/
def getAttemptResults (db : DB) (attemptId userId : Nat) : Except String ResultsView :=
  match getAttemptById db attemptId with
  | none => .error "Attempt not found"
  | some attemptData =>
    if attemptData.attempt.userId ≠ userId then
      .error "Unauthorized to view this attempt"
    else
      match attemptData.exam with
      | none => .error "Exam not found"
      | some exam =>
        let showAnswers :=
          exam.showAnswersAfter = .immediately ∨
            (exam.showAnswersAfter = .after_submit ∧
              attemptData.attempt.status = .completed)
        let questionsWithAnswers : List QuestionWithAnswers :=
          if showAnswers then
            ((db.examQuestions.filter (fun q => q.examId == exam.id)).filterMap
              (fun b => (db.questions.find? (fun q => q.id == b.questionId)).map
                (fun q => (b, q)))).map (fun bq =>
              { question := bq.2
                order := bq.1.order
                points := bq.1.points
                options := db.questionOptions.filter (fun o => o.questionId == bq.2.id)
                userAnswer :=
                  (attemptData.answers.filter
                    (fun a => a.answer.questionId == bq.2.id)).getLast? })
          else []
        .ok
          { attempt := attemptData
            exam := exam
            showAnswers := decide showAnswers
            questions := questionsWithAnswers }

/-- `AttemptService.abandonAttempt`: unconditionally stamps the matching
attempt row `abandoned` and returns the updated row (none when no row
matched). -/
def abandonAttempt (db : DB) (now : Nat) (attemptId : Nat) : DB × Option ExamAttempt :=
  let updated := db.examAttempts.map (fun a =>
    if a.id == attemptId then { a with status := .abandoned, completedAt := some now } else a)
  ({ db with examAttempts := updated }, updated.find? (fun a => a.id == attemptId))

/-- `AttemptController.abandonAttempt`: 404 when the attempt is missing,
403 when not owned by the caller; calls the service only when the
attempt is still `in_progress`, and otherwise acknowledges success with
no attempt data in the response. -/
def abandonAttemptController (db : DB) (now : Nat) (attemptId userId : Nat) :
    Except String (DB × Option ExamAttempt) :=
  match getAttemptById db attemptId with
  | none => .error "Attempt not found"
  | some details =>
    if details.attempt.userId ≠ userId then
      .error "Forbidden: You can only abandon your own attempts"
    else if details.attempt.status = .in_progress then
      .ok (abandonAttempt db now attemptId)
    else
      .ok (db, none)

/-- The questions addQuestionsToExam accepts: requested ids that exist
and are not soft-deleted. -/
def validQuestionsOf (db : DB) (questionIds : List Nat) : List Question :=
  db.questions.filter (fun q => questionIds.contains q.id && !q.deleted)

/-- The current maximum display order of an exam's bindings (-1 when
none), as `COALESCE(MAX(order), -1)`. -/
def maxOrderOf (db : DB) (examId : Nat) : Int :=
  ((db.examQuestions.filter (fun q => q.examId == examId)).map (·.order)).foldl max (-1)

/-- The binding rows inserted by addQuestionsToExam: one per valid
question, carrying the question's own point value and consecutive
orders. -/
def newBindingsFor (db : DB) (examId : Nat) (questionIds : List Nat) : List ExamQuestion :=
  (validQuestionsOf db questionIds).enum.map (fun qi =>
    { id := db.nextExamQuestionId + qi.1
      examId := examId
      questionId := qi.2.id
      order := maxOrderOf db examId + (qi.1 : Int) + 1
      points := qi.2.points
      isRequired := true })

/-- `ExamService.addQuestionsToExam`: verifies all requested questions
exist and are live, appends one binding per question carrying the
question's own point value, and adds the batch size and point sum onto
the exam row's denormalized `totalQuestions` / `totalPoints`. -/
def addQuestionsToExam (db : DB) (examId : Nat) (questionIds : List Nat) :
    Except String DB :=
  if questionIds = [] then
    .error "Question IDs array cannot be empty"
  else if (validQuestionsOf db questionIds).length ≠ questionIds.length then
    .error "Some questions not found or have been deleted"
  else
    .ok { db with
      examQuestions := db.examQuestions ++ newBindingsFor db examId questionIds
      nextExamQuestionId := db.nextExamQuestionId + (validQuestionsOf db questionIds).length
      exams := db.exams.map (fun e =>
        if e.id == examId then
          { e with
            totalQuestions := e.totalQuestions + (validQuestionsOf db questionIds).length
            totalPoints := e.totalPoints + ((validQuestionsOf db questionIds).map (·.points)).sum }
        else e) }

/-- `ExamService.removeQuestionFromExam`: deletes the binding rows for
the pair and subtracts the first matching binding's points (and one
question) from the exam row's denormalized totals. -/
def removeQuestionFromExam (db : DB) (examId questionId : Nat) : Except String DB :=
  match db.examQuestions.find?
      (fun q => q.examId == examId && q.questionId == questionId) with
  | none => .error "Question not found in exam"
  | some examQuestion =>
    .ok { db with
      examQuestions := db.examQuestions.filter (fun q =>
        !(q.examId == examId && q.questionId == questionId))
      exams := db.exams.map (fun e =>
        if e.id == examId then
          { e with
            totalQuestions := e.totalQuestions - 1
            totalPoints := e.totalPoints - examQuestion.points }
        else e) }

/-- Database for the C2 counterexample: question 1 is a multiple-answer
question whose single correct option has id 10. -/
def dbC2 : DB :=
  { exams := [], questions := [], questionOptions := [⟨10, 1, true, 0⟩],
    examQuestions := [], examAttempts := [], userAnswers := [],
    nextExamQuestionId := 1, nextAttemptId := 1, nextAnswerId := 1 }

/-- Database for the C1 counterexample: a published exam whose single
multiple-choice question is bound with 0 points (reachable — the API
accepts points 0 at question creation), with an in-progress attempt. -/
def dbC1 : DB :=
  { exams := [⟨1, true, 70, 0, 1, none, none, false, .after_submit, false⟩],
    questions := [⟨1, .multiple_choice, 0, false, 0, 0, 0⟩],
    questionOptions := [⟨11, 1, true, 0⟩],
    examQuestions := [⟨1, 1, 1, 0, 0, true⟩],
    examAttempts := [⟨1, 1, 7, .in_progress, 0, none, none, none, none, 0, 0, 0, 0, 0,
      none, none, 0, none⟩],
    userAnswers := [],
    nextExamQuestionId := 2, nextAttemptId := 2, nextAnswerId := 1 }

/-- Witness database: a published exam with one 2-point multiple-choice
question and an in-progress attempt of user 7. -/
def dbW1 : DB :=
  { exams := [⟨1, true, 70, 2, 1, none, none, false, .after_submit, false⟩],
    questions := [⟨1, .multiple_choice, 2, false, 0, 0, 0⟩],
    questionOptions := [⟨11, 1, true, 0⟩, ⟨12, 1, false, 1⟩],
    examQuestions := [⟨1, 1, 1, 0, 2, true⟩],
    examAttempts := [⟨1, 1, 7, .in_progress, 0, none, none, none, none, 0, 2, 0, 0, 0,
      none, none, 0, none⟩],
    userAnswers := [],
    nextExamQuestionId := 2, nextAttemptId := 2, nextAnswerId := 1 }

def dW1 : SubmitAnswerData := ⟨1, 1, some 11, none, none, none, none⟩

/-- The state and result of the C1 witness call (total by a fallback
never taken, as the witness proves the call succeeds). -/
def c1out : DB × SubmitAnswerResult :=
  match submitAnswer dbW1 5 dW1 with
  | .ok p => p
  | .error _ => (dbW1, ⟨⟨0, 0, 0, none, none, none, none, 0, 0, false, none⟩, none, false⟩)

def dC8 : SubmitAnswerData := ⟨1, 1, none, none, some "hello", none, none⟩

deriving instance DecidableEq for Except

/-- Databases for the C3 counterexample, identical except for the stored
answer's isCorrect flag; the exam policy is showAnswersAfter = never and
the attempt is completed and owned by user 7. -/
def dbC3 (c : Option Bool) : DB :=
  { exams := [⟨1, true, 70, 1, 1, none, none, false, .never, false⟩],
    questions := [⟨1, .multiple_choice, 1, false, 0, 0, 0⟩],
    questionOptions := [⟨11, 1, true, 0⟩],
    examQuestions := [⟨1, 1, 1, 0, 1, true⟩],
    examAttempts := [⟨1, 1, 7, .completed, 0, some 9, some 9, some 0, some 10000, 1, 1, 1,
      0, 0, some true, none, 0, none⟩],
    userAnswers := [⟨1, 1, 1, some 11, none, none, c, 1, 0, false, some 1⟩],
    nextExamQuestionId := 2, nextAttemptId := 2, nextAnswerId := 2 }

/-- The result of the C3 witness call (fallback never taken). -/
def c3out : ResultsView :=
  match getAttemptResults (dbC3 (some true)) 1 7 with
  | .ok v => v
  | .error _ =>
    ⟨⟨⟨0, 0, 0, .in_progress, 0, none, none, none, none, 0, 0, 0, 0, 0, none, none, 0, none⟩,
      none, []⟩, ⟨0, false, 0, 0, 0, none, none, false, .never, false⟩, true, []⟩

/-- Witness database for submitExam: one 1-point question, an
in-progress attempt, and one stored correct answer. -/
def dbW4 : DB :=
  { exams := [⟨1, true, 70, 1, 1, none, none, false, .after_submit, false⟩],
    questions := [⟨1, .multiple_choice, 1, false, 0, 0, 0⟩],
    questionOptions := [⟨11, 1, true, 0⟩],
    examQuestions := [⟨1, 1, 1, 0, 1, true⟩],
    examAttempts := [⟨1, 1, 7, .in_progress, 0, none, none, none, none, 0, 1, 0, 0, 0,
      none, none, 0, none⟩],
    userAnswers := [⟨1, 1, 1, some 11, none, none, some true, 1, 0, false, some 1⟩],
    nextExamQuestionId := 2, nextAttemptId := 2, nextAnswerId := 2 }

/-- The state and result of the C4 witness call (fallback never taken). -/
def c4out : DB × SubmitExamResult :=
  match submitExam dbW4 2000 1 with
  | .ok p => p
  | .error _ =>
    (dbW4, ⟨⟨0, 0, 0, .in_progress, 0, none, none, none, none, 0, 0, 0, 0, 0,
      none, none, 0, none⟩, ⟨0, 0, 0, 0, 0, 0, 0, 0⟩, false, .completed⟩)

/-- Database for the C5 counterexample: bindings worth 0 and 1 points on
a published exam with an in-progress attempt. -/
def dbC5 : DB :=
  { exams := [⟨1, true, 70, 1, 2, none, none, false, .after_submit, false⟩],
    questions := [⟨1, .multiple_choice, 0, false, 0, 0, 0⟩, ⟨2, .multiple_choice, 1, false, 0, 0, 0⟩],
    questionOptions := [⟨11, 1, true, 0⟩, ⟨21, 2, true, 0⟩],
    examQuestions := [⟨1, 1, 1, 0, 0, true⟩, ⟨2, 1, 2, 1, 1, true⟩],
    examAttempts := [⟨1, 1, 7, .in_progress, 0, none, none, none, none, 0, 1, 0, 0, 0,
      none, none, 0, none⟩],
    userAnswers := [],
    nextExamQuestionId := 3, nextAttemptId := 2, nextAnswerId := 1 }

/-- The aggregate of the C5 witness call (fallback never taken). -/
def c5s : ScoreResult :=
  match calculateScore dbW4 1 with
  | .ok s => s
  | .error _ => ⟨0, 0, 0, 0, 0, 0, 0, 0⟩

/-- The count startAttempt compares against the limit: this user's
attempts on this exam with status completed, and nothing else. -/
def completedCount (db : DB) (examId userId : Nat) : Nat :=
  (db.examAttempts.filter (fun a =>
    a.examId == examId && a.userId == userId &&
      decide (a.status = AttemptStatus.completed))).length

/-- Database with attemptsAllowed = 1 and one completed attempt of user
7 (used to exercise the attempt limit and the terminal abandon path). -/
def dbW6 : DB :=
  { exams := [⟨1, true, 70, 1, 1, none, some 1, false, .after_submit, false⟩],
    questions := [⟨1, .multiple_choice, 1, false, 0, 0, 0⟩],
    questionOptions := [⟨11, 1, true, 0⟩],
    examQuestions := [⟨1, 1, 1, 0, 1, true⟩],
    examAttempts := [⟨1, 1, 7, .completed, 0, some 5, some 5, some 0, some 10000, 1, 1, 1,
      0, 0, some true, none, 0, none⟩],
    userAnswers := [],
    nextExamQuestionId := 2, nextAttemptId := 2, nextAnswerId := 1 }

/-- The sum of the point values of an exam's question bindings. -/
def bindingPointsSum (db : DB) (examId : Nat) : Int :=
  ((db.examQuestions.filter (fun q => q.examId == examId)).map (·.points)).sum

/-- The denormalization invariant maintained by the exam service: every
exam row's totalPoints equals the sum of its bindings' points. -/
def ExamTotalsInv (db : DB) : Prop :=
  ∀ e ∈ db.exams, e.totalPoints = bindingPointsSum db e.id

/-- The state and result of the C7 witness call (fallback never taken). -/
def c7out : DB × StartAttemptResult :=
  match startAttempt dbW1 3 1 9 none with
  | .ok p => p
  | .error _ =>
    (dbW1, ⟨⟨0, 0, 0, .completed, 0, none, none, none, none, 0, 0, 0, 0, 0,
      none, none, 0, none⟩, ⟨0, false, 0, 0, 0, none, none, false, .never, false⟩, 0⟩)

/-- Uniqueness of the (examId, questionId) binding key, the
`unique_exam_question_idx` index of the schema. -/
def BindingKeysUnique (db : DB) : Prop :=
  db.examQuestions.Pairwise (fun a b => a.examId ≠ b.examId ∨ a.questionId ≠ b.questionId)

/-- Well-formedness of the answers table: unique row ids, ids below the
serial counter, and the (attemptId, questionId) unique index. -/
def AnswersWF (db : DB) : Prop :=
  (db.userAnswers.map (·.id)).Nodup ∧
  (∀ a ∈ db.userAnswers, a.id < db.nextAnswerId) ∧
  db.userAnswers.Pairwise (fun a b => a.attemptId ≠ b.attemptId ∨ a.questionId ≠ b.questionId)

/-- A sequence of submitAnswer calls (with their timestamps), each
applied to the state left by the previous one; failed calls leave the
state unchanged (the service throws before writing). -/
def submitSeq (db : DB) (ds : List (Nat × SubmitAnswerData)) : DB :=
  ds.foldl (fun s p =>
    match submitAnswer s p.1 p.2 with
    | .ok q => q.1
    | .error _ => s) db

/-- Equality of the two sorted arrays — the only way the grading code
observes the sort — is exactly permutation (multiset) equality. -/
lemma sortNat_eq_iff_perm {a b : List Nat} : sortNat a = sortNat b ↔ a.Perm b := by
  unfold sortNat
  constructor
  · intro h
    have ha := List.perm_insertionSort (· ≤ ·) a
    have hb := List.perm_insertionSort (· ≤ ·) b
    exact ha.symm.trans (h ▸ hb)
  · intro h
    refine List.eq_of_perm_of_sorted ?_
      (List.sorted_insertionSort _ a) (List.sorted_insertionSort _ b)
    exact (List.perm_insertionSort _ a).trans (h.trans (List.perm_insertionSort _ b).symm)

/-- The multiple-answer branch of the auto-grader, written out. -/
lemma autoGrade_multiple_answer (db : DB) (qid : Nat) (oid : Option Nat)
    (sel : List Nat) (t : Option String) :
    autoGradeAnswer db .multiple_answer qid oid (some sel) t =
      if sel = [] then ⟨some false, 0, false⟩
      else
        ⟨some (decide (sortNat ((correctOptionsOf db qid).map (·.id)) = sortNat sel)),
          if sortNat ((correctOptionsOf db qid).map (·.id)) = sortNat sel then
            (match db.examQuestions.find? (fun q => q.questionId == qid) with
              | some q => if q.points = 0 then 1 else q.points
              | none => 1)
          else 0, false⟩ := rfl

lemma applyStats_userAnswers (db : DB) (qid : Nat) (g : GradeResult) :
    (applyStats db qid g).userAnswers = db.userAnswers := by
  unfold applyStats
  cases g.isCorrect <;> rfl

lemma applyStats_examAttempts (db : DB) (qid : Nat) (g : GradeResult) :
    (applyStats db qid g).examAttempts = db.examAttempts := by
  unfold applyStats
  cases g.isCorrect <;> rfl

lemma applyStats_nextAnswerId (db : DB) (qid : Nat) (g : GradeResult) :
    (applyStats db qid g).nextAnswerId = db.nextAnswerId := by
  unfold applyStats
  cases g.isCorrect <;> rfl

lemma submitAnswer_ok_cases {db : DB} {now : Nat} {d : SubmitAnswerData}
    {db' : DB} {res : SubmitAnswerResult}
    (hok : submitAnswer db now d = .ok (db', res)) :
    ∃ attempt question,
      db.examAttempts.find? (fun a => a.id == d.attemptId) = some attempt ∧
      attempt.status = .in_progress ∧
      db.questions.find? (fun q => q.id == d.questionId) = some question ∧
      (db.examQuestions.find?
        (fun q => q.examId == attempt.examId && q.questionId == d.questionId)).isSome ∧
      res.isCorrect = (gradeOf db question d).isCorrect ∧
      res.needsManualGrading = (gradeOf db question d).needsManualGrading ∧
      res.answer = answerRow db now d question res.answer.id ∧
      db'.examAttempts = db.examAttempts ∧
      ((∃ ex, db.userAnswers.find?
            (fun a => a.attemptId == d.attemptId && a.questionId == d.questionId) = some ex ∧
          res.answer.id = ex.id ∧
          db'.userAnswers =
            db.userAnswers.map (fun a => if a.id == ex.id then res.answer else a) ∧
          db'.nextAnswerId = db.nextAnswerId) ∨
        (db.userAnswers.find?
            (fun a => a.attemptId == d.attemptId && a.questionId == d.questionId) = none ∧
          res.answer.id = db.nextAnswerId ∧
          db'.userAnswers = db.userAnswers ++ [res.answer] ∧
          db'.nextAnswerId = db.nextAnswerId + 1)) := by
  unfold submitAnswer at hok
  split at hok
  · simp at hok
  next attempt hatt =>
    split at hok
    · simp at hok
    next hst =>
      split at hok
      · simp at hok
      next question hq =>
        split at hok
        · simp at hok
        next eqq hb =>
          split at hok
          next ex hex =>
            rw [Except.ok.injEq, Prod.mk.injEq] at hok
            obtain ⟨hdb, hres⟩ := hok
            subst hdb
            subst hres
            refine ⟨attempt, question, hatt, by simpa using hst, hq, by simp [hb],
              rfl, rfl, rfl, ?_, ?_⟩
            · rw [applyStats_examAttempts]
            · left
              exact ⟨ex, hex, rfl, by rw [applyStats_userAnswers], by rw [applyStats_nextAnswerId]⟩
          next hex =>
            rw [Except.ok.injEq, Prod.mk.injEq] at hok
            obtain ⟨hdb, hres⟩ := hok
            subst hdb
            subst hres
            refine ⟨attempt, question, hatt, by simpa using hst, hq, by simp [hb],
              rfl, rfl, rfl, ?_, ?_⟩
            · rw [applyStats_examAttempts]
            · right
              exact ⟨hex, rfl, by rw [applyStats_userAnswers], by rw [applyStats_nextAnswerId]⟩

lemma autoGrade_points (db : DB) (qt : QuestionType) (qid : Nat)
    (oid : Option Nat) (sel : Option (List Nat)) (t : Option String)
    (b : ExamQuestion)
    (hb : db.examQuestions.find? (fun q => q.questionId == qid) = some b)
    (hne : b.points ≠ 0) :
    ((autoGradeAnswer db qt qid oid sel t).isCorrect = some true →
      (autoGradeAnswer db qt qid oid sel t).pointsAwarded = b.points) ∧
    ((autoGradeAnswer db qt qid oid sel t).isCorrect = some false →
      (autoGradeAnswer db qt qid oid sel t).pointsAwarded = 0) := by
  unfold autoGradeAnswer
  rw [hb]
  cases qt
  case essay => simp
  case fill_blank => simp
  case multiple_choice =>
    cases oid with
    | none => simp
    | some o =>
      by_cases h : (correctOptionsOf db qid).any (fun x => x.id == o)
      · simp [h, hne]
      · simp [h]
  case true_false =>
    cases oid with
    | none => simp
    | some o =>
      by_cases h : (correctOptionsOf db qid).any (fun x => x.id == o)
      · simp [h, hne]
      · simp [h]
  case multiple_answer =>
    cases sel with
    | none => simp
    | some s =>
      by_cases hs : s = []
      · simp [hs]
      · by_cases h : sortNat ((correctOptionsOf db qid).map (·.id)) = sortNat s
        · simp [hs, h, hne]
        · simp [hs, h]

theorem C1_counterexample :
    (dbC1.examQuestions.find?
      (fun q => q.examId == 1 && q.questionId == 1)).map (·.points) = some 0 ∧
    Except.map (fun p => (p.2.isCorrect, p.2.answer.pointsAwarded))
      (submitAnswer dbC1 5 ⟨1, 1, some 11, none, none, none, none⟩) =
      .ok (some true, 1) := by
  decide

/-- C1 (amended): for every successful SubmitAnswer, the pointsAwarded
returned and stored equals the point value of the first stored binding
for the question — which is the binding to the attempt's exam whenever
that binding is the question's first (e.g. the question is bound to a
single exam) — provided that value is nonzero (the JS fallback
`points || 1` replaces a stored 0 with 1, see the counterexample), when
the answer grades correct; and equals 0 when it grades incorrect.  The
row returned is stored. -/
theorem C1_objective_points {db : DB} {now : Nat} {d : SubmitAnswerData}
    {db' : DB} {res : SubmitAnswerResult} {attempt : ExamAttempt} {b : ExamQuestion}
    (hok : submitAnswer db now d = .ok (db', res))
    (_hatt : db.examAttempts.find? (fun a => a.id == d.attemptId) = some attempt)
    (hfirst : db.examQuestions.find? (fun q => q.questionId == d.questionId) = some b)
    (_hbex : b.examId = attempt.examId)
    (hne : b.points ≠ 0) :
    (res.isCorrect = some true → res.answer.pointsAwarded = b.points) ∧
    (res.isCorrect = some false → res.answer.pointsAwarded = 0) ∧
    res.answer.isCorrect = res.isCorrect ∧
    res.answer ∈ db'.userAnswers := by
  obtain ⟨attempt', question, hatt', _hst, hq, _hbind, hic, _hnmg, hrow, _hatts, hupd⟩ :=
    submitAnswer_ok_cases hok
  have hpts : res.answer.pointsAwarded = (gradeOf db question d).pointsAwarded := by
    rw [hrow]
    simp [answerRow]
  have hics : res.answer.isCorrect = res.isCorrect := by
    rw [hrow, hic]
    simp [answerRow]
  have hgp := autoGrade_points db question.questionType d.questionId
    d.selectedOptionId d.selectedOptionIds d.textAnswer b hfirst hne
  refine ⟨?_, ?_, hics, ?_⟩
  · intro h
    rw [hic] at h
    rw [hpts]
    exact hgp.1 h
  · intro h
    rw [hic] at h
    rw [hpts]
    exact hgp.2 h
  · rcases hupd with ⟨ex, hex, _hid, hua, -⟩ | ⟨hex, _hid, hua, -⟩
    · rw [hua]
      refine List.mem_map.mpr ⟨ex, List.mem_of_find?_eq_some hex, ?_⟩
      simp
    · rw [hua]
      simp

theorem C1_witness :
    (submitAnswer dbW1 5 dW1 = .ok (c1out.1, c1out.2) ∧
      dbW1.examAttempts.find? (fun a => a.id == dW1.attemptId) =
        some ⟨1, 1, 7, .in_progress, 0, none, none, none, none, 0, 2, 0, 0, 0,
          none, none, 0, none⟩ ∧
      dbW1.examQuestions.find? (fun q => q.questionId == dW1.questionId) =
        some ⟨1, 1, 1, 0, 2, true⟩ ∧
      (⟨1, 1, 1, 0, 2, true⟩ : ExamQuestion).points ≠ 0) ∧
    ((c1out.2.isCorrect = some true → c1out.2.answer.pointsAwarded = 2) ∧
      (c1out.2.isCorrect = some false → c1out.2.answer.pointsAwarded = 0) ∧
      c1out.2.answer.isCorrect = c1out.2.isCorrect ∧
      c1out.2.answer ∈ c1out.1.userAnswers) :=
  ⟨⟨by decide, by decide, by decide, by decide⟩,
    @C1_objective_points dbW1 5 dW1 c1out.1 c1out.2
      ⟨1, 1, 7, .in_progress, 0, none, none, none, none, 0, 2, 0, 0, 0, none, none, 0, none⟩
      ⟨1, 1, 1, 0, 2, true⟩
      (by decide) (by decide) (by decide) (by decide) (by decide)⟩

/-- C2, counterexample.  The submitted collection [10, 10] is equal *as a
set* to the correct-option set {10} (their toFinsets coincide), yet the
grader returns isCorrect = false: grading compares sorted arrays, i.e.
multisets, so a duplicated selection of exactly the correct options is
graded incorrect, refuting "isCorrect = true iff S equals C as a set". -/
theorem C2_counterexample :
    ([10, 10] : List Nat).toFinset = ((correctOptionsOf dbC2 1).map (·.id)).toFinset ∧
    (autoGradeAnswer dbC2 .multiple_answer 1 none (some [10, 10]) none).isCorrect =
      some false ∧
    (autoGradeAnswer dbC2 .multiple_answer 1 none (some [10]) none).isCorrect =
      some true := by
  decide

/-- C2 (amended): for a multiple-answer question, grading returns
isCorrect = true iff the submitted collection is nonempty, duplicate-free,
and equal as a set to the correct-option set; a collection with duplicate
ids grades incorrect even when its underlying set equals the correct set.
Any incorrect grade awards 0 points; an absent selection grades incorrect
with 0 points; grading is never flagged for manual review. -/
theorem C2_multiple_answer_set_equality (db : DB) (qid : Nat) (oid : Option Nat)
    (sel : List Nat) (t : Option String)
    (hC : (((correctOptionsOf db qid).map (·.id))).Nodup) :
    ((autoGradeAnswer db .multiple_answer qid oid (some sel) t).isCorrect = some true ↔
      (sel ≠ [] ∧ sel.Nodup ∧
        ∀ x, x ∈ sel ↔ x ∈ (correctOptionsOf db qid).map (·.id))) ∧
    ((autoGradeAnswer db .multiple_answer qid oid (some sel) t).isCorrect = some true ∨
      ((autoGradeAnswer db .multiple_answer qid oid (some sel) t).isCorrect = some false ∧
        (autoGradeAnswer db .multiple_answer qid oid (some sel) t).pointsAwarded = 0)) ∧
    autoGradeAnswer db .multiple_answer qid oid none t =
      ⟨some false, 0, false⟩ := by
  rw [autoGrade_multiple_answer]
  by_cases hsel : sel = []
  · subst hsel
    refine ⟨?_, ?_, rfl⟩
    · simp
    · right
      simp
  · rw [if_neg hsel]
    set C := (correctOptionsOf db qid).map (·.id) with hCdef
    refine ⟨?_, ?_, rfl⟩
    · constructor
      · intro h
        have hperm : C.Perm sel := by
          have := of_decide_eq_true (Option.some.inj h)
          exact sortNat_eq_iff_perm.mp this
        refine ⟨hsel, ?_, ?_⟩
        · exact hperm.nodup_iff.mp hC
        · intro x
          exact hperm.symm.mem_iff
      · rintro ⟨-, hnd, hmem⟩
        have hperm : sel.Perm C :=
          (List.perm_ext_iff_of_nodup hnd hC).mpr hmem
        have : sortNat C = sortNat sel := sortNat_eq_iff_perm.mpr hperm.symm
        simp [this]
    · by_cases h : sortNat C = sortNat sel
      · left
        simp [h]
      · right
        simp [h]

theorem C2_witness :
    ((correctOptionsOf dbC2 1).map (·.id)).Nodup ∧
    (((autoGradeAnswer dbC2 .multiple_answer 1 none (some [10]) none).isCorrect = some true ↔
        (([10] : List Nat) ≠ [] ∧ ([10] : List Nat).Nodup ∧
          ∀ x, x ∈ ([10] : List Nat) ↔ x ∈ (correctOptionsOf dbC2 1).map (·.id))) ∧
      ((autoGradeAnswer dbC2 .multiple_answer 1 none (some [10]) none).isCorrect = some true ∨
        ((autoGradeAnswer dbC2 .multiple_answer 1 none (some [10]) none).isCorrect = some false ∧
          (autoGradeAnswer dbC2 .multiple_answer 1 none (some [10]) none).pointsAwarded = 0)) ∧
      autoGradeAnswer dbC2 .multiple_answer 1 none none none =
        ⟨some false, 0, false⟩) :=
  ⟨by decide, C2_multiple_answer_set_equality dbC2 1 none [10] none (by decide)⟩

/-- C8, counterexample.  The only question of the database is a
multiple_choice question, and the submitted payload carries only free
text — a shape that the claim says must be rejected with ValidationError
and must create no row.  Instead the call succeeds, creating one answer
row graded incorrect with the text stored on it. -/
theorem C8_counterexample :
    dbW1.questions.map (·.questionType) = [QuestionType.multiple_choice] ∧
    dbW1.userAnswers.length = 0 ∧
    Except.map (fun p => (p.1.userAnswers.length, p.2.isCorrect, p.2.answer.textAnswer))
      (submitAnswer dbW1 3 ⟨1, 1, none, none, some "hello", none, none⟩) =
      .ok (1, some false, some "hello") := by
  decide

/-- C8 (amended): the service never validates the payload shape against
the question's stored type.  Whenever the attempt exists and is in
progress, the question exists, and the question is bound to the attempt's
exam, submitAnswer succeeds for every payload whatsoever — there is no
ValidationError path — and an answer row for (attemptId, questionId) is
created or updated.  (Shape checking exists only in the controller's zod
discriminated union, which is keyed by the client-declared answerType,
not by the question's stored type.) -/
theorem C8_no_payload_validation {db : DB} {now : Nat} {d : SubmitAnswerData}
    {attempt : ExamAttempt} {question : Question}
    (hatt : db.examAttempts.find? (fun a => a.id == d.attemptId) = some attempt)
    (hst : attempt.status = .in_progress)
    (hq : db.questions.find? (fun q => q.id == d.questionId) = some question)
    (hb : (db.examQuestions.find?
      (fun q => q.examId == attempt.examId && q.questionId == d.questionId)).isSome) :
    ∃ db' res, submitAnswer db now d = .ok (db', res) ∧
      (db'.userAnswers.find?
        (fun a => a.attemptId == d.attemptId && a.questionId == d.questionId)).isSome := by
  obtain ⟨eqq, hbe⟩ := Option.isSome_iff_exists.mp hb
  unfold submitAnswer
  simp only [hatt, hq, hbe, hst, ne_eq, not_true_eq_false, if_false, ite_false]
  cases hex : db.userAnswers.find?
      (fun a => a.attemptId == d.attemptId && a.questionId == d.questionId) with
  | some ex =>
    simp only [hex]
    refine ⟨_, _, rfl, ?_⟩
    rw [applyStats_userAnswers]
    refine (List.find?_isSome).mpr ⟨answerRow db now d question ex.id, ?_, ?_⟩
    · refine List.mem_map.mpr ⟨ex, List.mem_of_find?_eq_some hex, ?_⟩
      simp
    · simp [answerRow]
  | none =>
    simp only [hex]
    refine ⟨_, _, rfl, ?_⟩
    rw [applyStats_userAnswers]
    refine (List.find?_isSome).mpr ⟨answerRow db now d question db.nextAnswerId, ?_, ?_⟩
    · simp
    · simp [answerRow]

theorem C8_witness :
    (dbW1.examAttempts.find? (fun a => a.id == dC8.attemptId) =
        some ⟨1, 1, 7, .in_progress, 0, none, none, none, none, 0, 2, 0, 0, 0,
          none, none, 0, none⟩ ∧
      dbW1.questions.find? (fun q => q.id == dC8.questionId) =
        some ⟨1, .multiple_choice, 2, false, 0, 0, 0⟩ ∧
      (dbW1.examQuestions.find? (fun q => q.examId == (1 : Nat) &&
        q.questionId == dC8.questionId)).isSome) ∧
    (∃ db' res, submitAnswer dbW1 3 dC8 = .ok (db', res) ∧
      (db'.userAnswers.find?
        (fun a => a.attemptId == dC8.attemptId && a.questionId == dC8.questionId)).isSome) :=
  ⟨⟨by decide, by decide, by decide⟩,
    @C8_no_payload_validation dbW1 3 dC8
      ⟨1, 1, 7, .in_progress, 0, none, none, none, none, 0, 2, 0, 0, 0, none, none, 0, none⟩
      ⟨1, .multiple_choice, 2, false, 0, 0, 0⟩
      (by decide) (by decide) (by decide) (by decide)⟩

/-- Integer floor division agrees with the rational floor (positive
divisor). -/
lemma floor_intCast_div_intCast (a b : ℤ) (hb : 0 < b) :
    ⌊(a : ℚ) / (b : ℚ)⌋ = a / b := by
  obtain ⟨n, rfl⟩ : ∃ n : ℕ, b = (n : ℤ) := ⟨b.toNat, (Int.toNat_of_nonneg hb.le).symm⟩
  exact_mod_cast Rat.floor_intCast_div_natCast a n

/-- The integer hundredths representation is exactly the source's
`Math.round(totalPoints / maxPoints * 100 * 100)`; dividing it by 100
yields exactly `round2 (totalPoints / maxPoints * 100)`. -/
lemma pct100_eq_round2 {tp mp : ℤ} (h : 0 < mp) :
    pct100 tp mp = jsRound ((tp : ℚ) / (mp : ℚ) * 100 * 100) ∧
    (pct100 tp mp : ℚ) / 100 = round2 ((tp : ℚ) / (mp : ℚ) * 100) := by
  have hmp : (mp : ℚ) ≠ 0 := by
    exact_mod_cast h.ne'
  have h2 : (0 : ℤ) < 2 * mp := by linarith
  have key : pct100 tp mp = jsRound ((tp : ℚ) / (mp : ℚ) * 100 * 100) := by
    unfold pct100 jsRound
    rw [if_pos h, ← floor_intCast_div_intCast _ _ h2]
    congr 1
    push_cast
    field_simp
    ring
  refine ⟨key, ?_⟩
  unfold round2
  rw [key]

/-- The rounded percentage is nonnegative whenever the summed points are. -/
lemma pct100_nonneg {tp mp : ℤ} (htp : 0 ≤ tp) : 0 ≤ pct100 tp mp := by
  unfold pct100
  split
  · next hpos =>
    have h1 : (0 : ℤ) ≤ 20000 * tp := by positivity
    exact Int.ediv_nonneg (by linarith) (by linarith)
  · exact le_refl 0

/-- Comparing the hundredths representation against an integer passing
score is exactly the rational comparison percentage >= passingScore. -/
lemma pct_le_iff (k p : ℤ) : (p : ℚ) ≤ (k : ℚ) / 100 ↔ 100 * p ≤ k := by
  rw [le_div_iff₀ (by norm_num : (0 : ℚ) < 100)]
  constructor
  · intro h
    have h2 : ((p * 100 : ℤ) : ℚ) ≤ ((k : ℤ) : ℚ) := by
      push_cast
      linarith
    have h3 : p * 100 ≤ k := by
      exact_mod_cast h2
    linarith
  · intro h
    have h2 : ((100 * p : ℤ) : ℚ) ≤ ((k : ℤ) : ℚ) := by
      exact_mod_cast h
    push_cast at h2
    linarith

/-- C3 (amended): with showAnswersAfter = never the Result Assembler
never attaches the per-question answer key: showAnswers is false and the
questions list (the only place option lists with their isCorrect flags
and per-question userAnswer views are assembled) is empty, for every
attempt status.  The claim as frozen is stronger and false: the returned
attempt still embeds the stored answers, whose isCorrect, pointsAwarded
and joined selectedOption fields reveal correctness. -/
theorem C3_never_hides_answer_key {db : DB} {attemptId userId : Nat} {v : ResultsView}
    (hok : getAttemptResults db attemptId userId = .ok v)
    (hnever : v.exam.showAnswersAfter = .never) :
    v.showAnswers = false ∧ v.questions = [] := by
  unfold getAttemptResults at hok
  split at hok
  · simp at hok
  next details hdet =>
    split at hok
    · simp at hok
    next howner =>
      split at hok
      · simp at hok
      next exam hexam =>
        rw [Except.ok.injEq] at hok
        subst hok
        simp only at hnever
        constructor
        · simp [hnever]
        · simp [hnever]

theorem C3_counterexample :
    (dbC3 (some true)).exams = (dbC3 (some false)).exams ∧
    (dbC3 (some true)).exams.map (·.showAnswersAfter) = [ShowAnswersAfter.never] ∧
    (dbC3 (some true)).examAttempts = (dbC3 (some false)).examAttempts ∧
    (dbC3 (some true)).userAnswers.map (fun a => { a with isCorrect := none }) =
      (dbC3 (some false)).userAnswers.map (fun a => { a with isCorrect := none }) ∧
    getAttemptResults (dbC3 (some true)) 1 7 ≠
      getAttemptResults (dbC3 (some false)) 1 7 := by
  decide

theorem C3_witness :
    (getAttemptResults (dbC3 (some true)) 1 7 = .ok c3out ∧
      c3out.exam.showAnswersAfter = .never) ∧
    (c3out.showAnswers = false ∧ c3out.questions = []) :=
  ⟨⟨by decide, by decide⟩,
    @C3_never_hides_answer_key (dbC3 (some true)) 1 7 c3out (by decide) (by decide)⟩

/-- C4 (confirmed): for every in_progress attempt, submitExam derives the
final status as grading exactly when the aggregate at submission time has
unanswered questions or answers pending manual grading and completed
otherwise, and sets isPassed (both returned and stored on the attempt,
together with the score) to percentage >= exam.passingScore computed from
that same aggregate, in both the grading and the completed case. -/
theorem C4_submitExam_finalization {db : DB} {now aid : Nat} {db' : DB}
    {r : SubmitExamResult}
    (hok : submitExam db now aid = .ok (db', r)) :
    ∃ attempt exam s,
      db.examAttempts.find? (fun a => a.id == aid) = some attempt ∧
      attempt.status = .in_progress ∧
      db.exams.find? (fun e => e.id == attempt.examId) = some exam ∧
      calculateScore db aid = .ok s ∧
      r.status = (if s.unansweredQuestions > 0 ∨ s.needsGrading > 0
        then AttemptStatus.grading else AttemptStatus.completed) ∧
      r.attempt.status = r.status ∧
      r.isPassed = decide (s.percentage100 ≥ 100 * exam.passingScore) ∧
      (r.isPassed = true ↔
        ((exam.passingScore : ℚ) ≤ (s.percentage100 : ℚ) / 100)) ∧
      r.attempt.isPassed = some r.isPassed ∧
      r.attempt.score = some s.percentage100 ∧
      r.attempt ∈ db'.examAttempts := by
  unfold submitExam at hok
  split at hok
  · simp at hok
  next attempt hatt =>
    split at hok
    · simp at hok
    next hst =>
      split at hok
      · simp at hok
      next exam hexam =>
        split at hok
        · simp at hok
        next s hs =>
          rw [Except.ok.injEq, Prod.mk.injEq] at hok
          obtain ⟨hdb, hr⟩ := hok
          subst hdb
          subst hr
          refine ⟨attempt, exam, s, hatt, by simpa using hst, hexam, hs,
            rfl, rfl, rfl, ?_, rfl, rfl, ?_⟩
          · rw [decide_eq_true_iff]
            exact (pct_le_iff s.percentage100 exam.passingScore).symm
          · have hpred := List.find?_some hatt
            refine List.mem_map.mpr ⟨attempt, List.mem_of_find?_eq_some hatt, ?_⟩
            rw [if_pos hpred]

theorem C4_witness :
    (submitExam dbW4 2000 1 = .ok (c4out.1, c4out.2)) ∧
    (∃ attempt exam s,
      dbW4.examAttempts.find? (fun a => a.id == (1 : Nat)) = some attempt ∧
      attempt.status = .in_progress ∧
      dbW4.exams.find? (fun e => e.id == attempt.examId) = some exam ∧
      calculateScore dbW4 1 = .ok s ∧
      c4out.2.status = (if s.unansweredQuestions > 0 ∨ s.needsGrading > 0
        then AttemptStatus.grading else AttemptStatus.completed) ∧
      c4out.2.attempt.status = c4out.2.status ∧
      c4out.2.isPassed = decide (s.percentage100 ≥ 100 * exam.passingScore) ∧
      (c4out.2.isPassed = true ↔
        ((exam.passingScore : ℚ) ≤ (s.percentage100 : ℚ) / 100)) ∧
      c4out.2.attempt.isPassed = some c4out.2.isPassed ∧
      c4out.2.attempt.score = some s.percentage100 ∧
      c4out.2.attempt ∈ c4out.1.examAttempts) :=
  ⟨by decide, @C4_submitExam_finalization dbW4 2000 1 c4out.1 c4out.2 (by decide)⟩

/-- C5, counterexample.  A reachable store (two correct submissions on an
in-progress attempt of an exam whose first binding carries 0 points)
drives the Score Aggregator to percentage100 = 20000, i.e. 200.00% — the
0-point binding was graded as 1 point by the `points || 1` fallback, so
totalPoints = 2 exceeds maxPoints = 1, refuting `percentage ≤ 100`. -/
theorem C5_counterexample :
    Except.map (fun s => (s.maxPoints, s.totalPoints, s.percentage100))
      ((submitAnswer dbC5 1 ⟨1, 1, some 11, none, none, none, none⟩).bind (fun p =>
        (submitAnswer p.1 2 ⟨1, 2, some 21, none, none, none, none⟩).bind (fun q =>
          calculateScore q.1 1))) = .ok (1, 2, 20000) ∧
    ¬((20000 : Int) ≤ 100 * 100) := by
  decide

/-- C5 (amended): the Score Aggregator returns percentage = 0 when
maxPoints ≤ 0 and otherwise percentage = round(totalPoints / maxPoints ×
100) to 2 decimal places (stated through the exact hundredths
representation percentage100), where totalPoints sums pointsAwarded over
the attempt's answers with isCorrect = true; the percentage is
nonnegative whenever all stored pointsAwarded are, but it is NOT bounded
by 100: stored answers can carry more points than the binding sum (see
the counterexample), and the aggregator does not clamp. -/
theorem C5_percentage_formula {db : DB} {aid : Nat} {s : ScoreResult}
    (hok : calculateScore db aid = .ok s)
    (hnn : ∀ a ∈ db.userAnswers, 0 ≤ a.pointsAwarded) :
    (s.maxPoints ≤ 0 → s.percentage100 = 0) ∧
    (0 < s.maxPoints →
      (s.percentage100 : ℚ) / 100 =
        round2 ((s.totalPoints : ℚ) / (s.maxPoints : ℚ) * 100)) ∧
    0 ≤ s.percentage100 ∧
    s.totalPoints = (((db.userAnswers.filter (fun a => a.attemptId == aid)).filter
      (fun a => a.isCorrect == some true)).map (·.pointsAwarded)).sum := by
  unfold calculateScore at hok
  split at hok
  · simp at hok
  next attempt hatt =>
    rw [Except.ok.injEq] at hok
    subst hok
    refine ⟨?_, ?_, ?_, rfl⟩
    · intro hle
      dsimp only at hle ⊢
      unfold pct100
      rw [if_neg (by omega)]
    · intro hpos
      exact (pct100_eq_round2 hpos).2
    · refine pct100_nonneg ?_
      refine List.sum_nonneg ?_
      intro x hx
      obtain ⟨a, ha, rfl⟩ := List.mem_map.mp hx
      have ha1 := List.mem_of_mem_filter ha
      have ha2 := List.mem_of_mem_filter ha1
      exact hnn a ha2

theorem C5_witness :
    (calculateScore dbW4 1 = .ok c5s ∧
      (∀ a ∈ dbW4.userAnswers, 0 ≤ a.pointsAwarded)) ∧
    ((c5s.maxPoints ≤ 0 → c5s.percentage100 = 0) ∧
      (0 < c5s.maxPoints →
        (c5s.percentage100 : ℚ) / 100 =
          round2 ((c5s.totalPoints : ℚ) / (c5s.maxPoints : ℚ) * 100)) ∧
      0 ≤ c5s.percentage100 ∧
      c5s.totalPoints = (((dbW4.userAnswers.filter (fun a => a.attemptId == (1 : Nat))).filter
        (fun a => a.isCorrect == some true)).map (·.pointsAwarded)).sum) :=
  ⟨⟨by decide, by decide⟩, @C5_percentage_formula dbW4 1 c5s (by decide) (by decide)⟩

/-- C6 (confirmed): with attemptsAllowed = N on a live published exam
with questions, startAttempt fails with the attempt-limit error exactly
when the count of this user's prior completed attempts on the exam has
reached N, and succeeds below it; attempts in any other status
(in_progress, grading, abandoned) never affect that count.  The error is
raised before the insert, so no attempt row is created (the state-passing
model returns no new store on error). -/
theorem C6_attempt_limit {db : DB} {now examId userId : Nat} {m : Option String}
    {exam : Exam} {N : Nat}
    (hfind : db.exams.find? (fun e => e.id == examId && !e.deleted) = some exam)
    (hpub : exam.isPublished = true)
    (hq : (db.examQuestions.filter (fun q => q.examId == examId)).length ≠ 0)
    (hN : exam.attemptsAllowed = some N) :
    (N ≤ completedCount db examId userId →
      startAttempt db now examId userId m =
        .error s!"Maximum attempts ({N}) reached for this exam") ∧
    (completedCount db examId userId < N →
      (startAttempt db now examId userId m).isOk = true) ∧
    (∀ extra : ExamAttempt, extra.status ≠ .completed →
      completedCount { db with examAttempts := db.examAttempts ++ [extra] } examId userId =
        completedCount db examId userId) := by
  refine ⟨?_, ?_, ?_⟩
  · intro h
    have hhit : attemptLimitHit db exam examId userId = some N := by
      simp only [attemptLimitHit, hN]
      rw [if_pos (by unfold completedCount at h; omega)]
    unfold startAttempt
    simp [hfind, hpub, hq, hhit]
  · intro h
    have hhit : attemptLimitHit db exam examId userId = none := by
      simp only [attemptLimitHit, hN]
      rw [if_neg (by unfold completedCount at h; omega)]
    unfold startAttempt
    simp [hfind, hpub, hq, hhit, Except.isOk, Except.toBool]
  · intro extra hextra
    unfold completedCount
    simp only [List.filter_append]
    have : (List.filter (fun a =>
        a.examId == examId && a.userId == userId &&
          decide (a.status = AttemptStatus.completed)) [extra]) = [] := by
      simp [hextra]
    rw [this]
    simp

theorem C6_witness :
    (dbW6.exams.find? (fun e => e.id == (1 : Nat) && !e.deleted) =
        some ⟨1, true, 70, 1, 1, none, some 1, false, .after_submit, false⟩ ∧
      (⟨1, true, 70, 1, 1, none, some 1, false, .after_submit, false⟩ : Exam).isPublished = true ∧
      (dbW6.examQuestions.filter (fun q => q.examId == (1 : Nat))).length ≠ 0 ∧
      (⟨1, true, 70, 1, 1, none, some 1, false, .after_submit, false⟩ : Exam).attemptsAllowed =
        some 1) ∧
    ((1 ≤ completedCount dbW6 1 7 →
        startAttempt dbW6 0 1 7 none =
          .error s!"Maximum attempts ({(1 : Nat)}) reached for this exam") ∧
      (completedCount dbW6 1 7 < 1 → (startAttempt dbW6 0 1 7 none).isOk = true) ∧
      (∀ extra : ExamAttempt, extra.status ≠ .completed →
        completedCount { dbW6 with examAttempts := dbW6.examAttempts ++ [extra] } 1 7 =
          completedCount dbW6 1 7)) :=
  ⟨⟨by decide, by decide, by decide, by decide⟩,
    @C6_attempt_limit dbW6 0 1 7 none
      ⟨1, true, 70, 1, 1, none, some 1, false, .after_submit, false⟩ 1
      (by decide) (by decide) (by decide) (by decide)⟩

/-- C7 (confirmed): a successful startAttempt creates the attempt
in_progress, with currentQuestionIndex 0, maxPoints equal to the sum of
the exam's binding point values (through the exam row's denormalized
totalPoints, which the exam service keeps equal to that sum — see the
preservation lemmas for addQuestionsToExam and removeQuestionFromExam),
and timeRemaining = duration × 60 seconds when duration is set and null
otherwise (durations are validated positive at the API boundary, hence
the hypothesis excluding a stored 0, which JS truthiness would send to
null). -/
theorem C7_startAttempt_fields {db : DB} {now examId userId : Nat} {m : Option String}
    {exam : Exam} {db' : DB} {res : StartAttemptResult}
    (hfind : db.exams.find? (fun e => e.id == examId && !e.deleted) = some exam)
    (hinv : exam.totalPoints = bindingPointsSum db examId)
    (hdur : exam.duration ≠ some 0)
    (hok : startAttempt db now examId userId m = .ok (db', res)) :
    res.attempt.status = .in_progress ∧
    res.attempt.maxPoints = bindingPointsSum db examId ∧
    res.attempt.currentQuestionIndex = 0 ∧
    res.attempt.timeRemaining = exam.duration.map (· * 60) ∧
    res.exam = exam ∧
    res.attempt ∈ db'.examAttempts := by
  unfold startAttempt at hok
  rw [hfind] at hok
  split at hok
  · simp at hok
  next examData hq =>
    obtain rfl : exam = examData := by injection hq
    split at hok
    · simp at hok
    next hpub =>
      split at hok
      · simp at hok
      next hq0 =>
        split at hok
        next allowed hlim => simp at hok
        next hlim =>
          rw [Except.ok.injEq, Prod.mk.injEq] at hok
          obtain ⟨hdb, hres⟩ := hok
          subst hdb
          subst hres
          refine ⟨rfl, ?_, rfl, ?_, rfl, by simp⟩
          · simpa [newAttempt] using hinv
          · simp only [newAttempt]
            cases hd : exam.duration with
            | none => simp
            | some dur =>
              have hdz : dur ≠ 0 := by
                intro h0
                exact hdur (by rw [hd, h0])
              simp [hdz]

theorem C7_witness :
    (dbW1.exams.find? (fun e => e.id == (1 : Nat) && !e.deleted) =
        some ⟨1, true, 70, 2, 1, none, none, false, .after_submit, false⟩ ∧
      (⟨1, true, 70, 2, 1, none, none, false, .after_submit, false⟩ : Exam).totalPoints =
        bindingPointsSum dbW1 1 ∧
      (⟨1, true, 70, 2, 1, none, none, false, .after_submit, false⟩ : Exam).duration ≠ some 0 ∧
      startAttempt dbW1 3 1 9 none = .ok (c7out.1, c7out.2)) ∧
    (c7out.2.attempt.status = .in_progress ∧
      c7out.2.attempt.maxPoints = bindingPointsSum dbW1 1 ∧
      c7out.2.attempt.currentQuestionIndex = 0 ∧
      c7out.2.attempt.timeRemaining =
        (⟨1, true, 70, 2, 1, none, none, false, .after_submit, false⟩ : Exam).duration.map
          (· * 60) ∧
      c7out.2.exam = ⟨1, true, 70, 2, 1, none, none, false, .after_submit, false⟩ ∧
      c7out.2.attempt ∈ c7out.1.examAttempts) :=
  ⟨⟨by decide, by decide, by decide, by decide⟩,
    @C7_startAttempt_fields dbW1 3 1 9 none
      ⟨1, true, 70, 2, 1, none, none, false, .after_submit, false⟩ c7out.1 c7out.2
      (by decide) (by decide) (by decide) (by decide)⟩

/-- Bindings inserted by addQuestionsToExam carry exactly the valid
questions' point values. -/
lemma addQuestions_newBindings_points (l : List Question) (next : Nat)
    (examId : Nat) (maxOrder : Int) :
    ((l.enum.map (fun qi =>
      ({ id := next + qi.1, examId := examId, questionId := qi.2.id,
         order := maxOrder + (qi.1 : Int) + 1, points := qi.2.points,
         isRequired := true } : ExamQuestion))).map (·.points)) = l.map (·.points) := by
  rw [List.map_map]
  have h1 : ((fun x : ExamQuestion => x.points) ∘ (fun qi : Nat × Question =>
      ({ id := next + qi.1, examId := examId, questionId := qi.2.id,
         order := maxOrder + (qi.1 : Int) + 1, points := qi.2.points,
         isRequired := true } : ExamQuestion))) =
      ((fun q : Question => q.points) ∘ Prod.snd) := rfl
  rw [h1, ← List.map_map]
  show ((List.enumFrom 0 l).map Prod.snd).map (fun q => q.points) = _
  rw [List.enumFrom_map_snd]

lemma newBindingsFor_points (db : DB) (examId : Nat) (qids : List Nat) :
    (newBindingsFor db examId qids).map (·.points) =
      (validQuestionsOf db qids).map (·.points) :=
  addQuestions_newBindings_points (validQuestionsOf db qids) db.nextExamQuestionId
    examId (maxOrderOf db examId)

lemma newBindingsFor_examId (db : DB) (examId : Nat) (qids : List Nat) :
    ∀ b ∈ newBindingsFor db examId qids, b.examId = examId := by
  intro b hb
  obtain ⟨qi, _, rfl⟩ := List.mem_map.mp hb
  rfl

/-- The exam service's addQuestionsToExam preserves the denormalization
invariant: it adds exactly the inserted bindings' point sum onto the
target exam's totalPoints. -/
lemma addQuestionsToExam_preserves_totals {db db' : DB} {examId : Nat}
    {qids : List Nat}
    (hok : addQuestionsToExam db examId qids = .ok db')
    (hinv : ExamTotalsInv db) : ExamTotalsInv db' := by
  unfold addQuestionsToExam at hok
  split at hok
  · simp at hok
  split at hok
  · simp at hok
  next hne hlen =>
    rw [Except.ok.injEq] at hok
    subst hok
    intro e' he'
    obtain ⟨e, he, rfl⟩ := List.mem_map.mp he'
    unfold bindingPointsSum
    by_cases hid : (e.id == examId) = true
    · rw [if_pos hid]
      have heq : e.id = examId := by simpa using hid
      simp only [List.filter_append, List.map_append, List.sum_append]
      have hfil : (newBindingsFor db examId qids).filter (fun q => q.examId == e.id) =
          newBindingsFor db examId qids := by
        refine List.filter_eq_self.mpr ?_
        intro b hb
        have := newBindingsFor_examId db examId qids b hb
        simp [this, heq]
      rw [hfil, newBindingsFor_points]
      have := hinv e he
      unfold bindingPointsSum at this
      rw [this]
    · rw [if_neg hid]
      have hne' : e.id ≠ examId := by simpa using hid
      simp only [List.filter_append, List.map_append, List.sum_append]
      have hfil : (newBindingsFor db examId qids).filter (fun q => q.examId == e.id) = [] := by
        refine List.filter_eq_nil_iff.mpr ?_
        intro b hb
        have := newBindingsFor_examId db examId qids b hb
        simp [this]
        omega
      rw [hfil]
      have := hinv e he
      unfold bindingPointsSum at this
      simp [this]

/-- Under a pairwise exclusivity guarantee, the first match found is the
only match. -/
lemma filter_singleton_of_pairwise {l : List ExamQuestion} {b : ExamQuestion}
    (p : ExamQuestion → Bool)
    (hfind : l.find? p = some b)
    (hpw : l.Pairwise (fun x y => p x = true → p y = true → False)) :
    l.filter p = [b] := by
  induction l with
  | nil => simp at hfind
  | cons a t ih =>
    rw [List.pairwise_cons] at hpw
    cases hpa : p a with
    | true =>
      rw [List.find?_cons_of_pos _ hpa, Option.some.injEq] at hfind
      subst hfind
      rw [List.filter_cons_of_pos hpa]
      have ht : t.filter p = [] := by
        refine List.filter_eq_nil_iff.mpr ?_
        intro y hy hpy
        exact hpw.1 y hy hpa hpy
      rw [ht]
    | false =>
      rw [List.find?_cons_of_neg _ (by simp [hpa])] at hfind
      rw [List.filter_cons_of_neg (by simp [hpa])]
      exact ih hfind hpw.2

/-- Splitting a filtered point sum along a second predicate. -/
lemma sum_filter_split (l : List ExamQuestion) (m p : ExamQuestion → Bool) :
    ((l.filter m).map (·.points)).sum =
      (((l.filter (fun q => !p q)).filter m).map (·.points)).sum +
      (((l.filter p).filter m).map (·.points)).sum := by
  induction l with
  | nil => simp
  | cons a t ih =>
    cases hp : p a <;> cases hm : m a <;>
      simp [List.filter_cons, hp, hm, ih] <;> ring

/-- The exam service's removeQuestionFromExam preserves the
denormalization invariant when binding keys are unique (the schema
enforces this with a unique index): the single deleted binding's points
are subtracted from the exam's totalPoints. -/
lemma removeQuestionFromExam_preserves_totals {db db' : DB} {examId questionId : Nat}
    (hok : removeQuestionFromExam db examId questionId = .ok db')
    (huniq : BindingKeysUnique db)
    (hinv : ExamTotalsInv db) : ExamTotalsInv db' := by
  unfold removeQuestionFromExam at hok
  split at hok
  · simp at hok
  next b0 hb0 =>
    rw [Except.ok.injEq] at hok
    subst hok
    intro e' he'
    obtain ⟨e, he, rfl⟩ := List.mem_map.mp he'
    have hb0k := List.find?_some hb0
    have hsplit := sum_filter_split db.examQuestions (fun q => q.examId == e.id)
      (fun q => q.examId == examId && q.questionId == questionId)
    have hpair : db.examQuestions.filter
        (fun q => q.examId == examId && q.questionId == questionId) = [b0] := by
      refine filter_singleton_of_pairwise _ hb0 ?_
      refine huniq.imp ?_
      intro x y hxy hx hy
      simp only [Bool.and_eq_true, beq_iff_eq] at hx hy
      rcases hxy with h | h
      · exact h (hx.1.trans hy.1.symm)
      · exact h (hx.2.trans hy.2.symm)
    rw [hpair] at hsplit
    have hinve := hinv e he
    unfold bindingPointsSum at hinve
    unfold bindingPointsSum
    by_cases hid : (e.id == examId) = true
    · rw [if_pos hid]
      dsimp only
      have heq : e.id = examId := by simpa using hid
      have hb0m : ([b0].filter (fun q => q.examId == e.id)) = [b0] := by
        have : b0.examId = examId := by
          simpa using (Bool.and_eq_true _ _ |>.mp hb0k).1
        simp [List.filter, this, heq]
      rw [hb0m] at hsplit
      simp only [List.map_cons, List.map_nil, List.sum_cons, List.sum_nil] at hsplit
      omega
    · rw [if_neg hid]
      dsimp only
      have hne' : e.id ≠ examId := by simpa using hid
      have hb0m : ([b0].filter (fun q => q.examId == e.id)) = [] := by
        have hb0e : b0.examId = examId := by
          simpa using (Bool.and_eq_true _ _ |>.mp hb0k).1
        have hfe : (b0.examId == e.id) = false := by
          simp only [hb0e, beq_eq_false_iff_ne]
          exact fun h => hne' h.symm
        simp [List.filter, hfe]
      rw [hb0m] at hsplit
      simpa [hinve] using hsplit

lemma count_le_one_of_pairwise {l : List UserAnswer} (aid qid : Nat)
    (hpw : l.Pairwise (fun a b => a.attemptId ≠ b.attemptId ∨ a.questionId ≠ b.questionId)) :
    (l.filter (fun a => a.attemptId == aid && a.questionId == qid)).length ≤ 1 := by
  induction l with
  | nil => simp
  | cons a t ih =>
    rw [List.pairwise_cons] at hpw
    by_cases hp : (a.attemptId == aid && a.questionId == qid) = true
    · have hpa := hp
      simp only [Bool.and_eq_true, beq_iff_eq] at hpa
      have ht : t.filter (fun a => a.attemptId == aid && a.questionId == qid) = [] := by
        refine List.filter_eq_nil_iff.mpr ?_
        intro y hy hpy
        simp only [Bool.and_eq_true, beq_iff_eq] at hpy
        rcases hpw.1 y hy with h | h
        · exact h (hpa.1.trans hpy.1.symm)
        · exact h (hpa.2.trans hpy.2.symm)
      simp [List.filter_cons, hp, ht]
    · have hp' : (a.attemptId == aid && a.questionId == qid) = false := by
        simpa using hp
      simp only [List.filter_cons, hp', Bool.false_eq_true, if_false]
      exact ih hpw.2

lemma find?_eq_of_filter_singleton {α} {p : α → Bool} {l : List α} {x : α}
    (h : l.filter p = [x]) : l.find? p = some x := by
  induction l with
  | nil => simp at h
  | cons a t ih =>
    by_cases hp : p a = true
    · simp only [List.filter_cons, hp, if_true] at h
      rw [List.find?_cons_of_pos _ hp]
      rw [List.cons.injEq] at h
      rw [h.1]
    · have hp' : p a = false := by
        simpa using hp
      simp only [List.filter_cons, hp', Bool.false_eq_true, if_false] at h
      rw [List.find?_cons_of_neg _ (by simpa using hp)]
      exact ih h

lemma submitAnswer_preserves_wf {db : DB} {now : Nat} {d : SubmitAnswerData}
    {db' : DB} {res : SubmitAnswerResult}
    (hwf : AnswersWF db) (hok : submitAnswer db now d = .ok (db', res)) :
    AnswersWF db' := by
  obtain ⟨hnd, hbound, hpw⟩ := hwf
  obtain ⟨attempt, question, hatt, hst, hq, hbind, hic, hnmg, hrow, hatts, hupd⟩ :=
    submitAnswer_ok_cases hok
  have hkey1 : res.answer.attemptId = d.attemptId := by
    rw [hrow]
    simp [answerRow]
  have hkey2 : res.answer.questionId = d.questionId := by
    rw [hrow]
    simp [answerRow]
  rcases hupd with ⟨ex, hex, hid, hua, hnid⟩ | ⟨hex, hid, hua, hnid⟩
  · have hexmem : ex ∈ db.userAnswers := List.mem_of_find?_eq_some hex
    have hexpred := List.find?_some hex
    simp only [Bool.and_eq_true, beq_iff_eq] at hexpred
    have hfid : ∀ a ∈ db.userAnswers,
        (if (a.id == ex.id) = true then res.answer else a).id = a.id := by
      intro a _
      by_cases h : (a.id == ex.id) = true
      · have : a.id = ex.id := by simpa using h
        simp [h, hid, this]
      · simp [h]
    have hfkey : ∀ a ∈ db.userAnswers,
        (if (a.id == ex.id) = true then res.answer else a).attemptId = a.attemptId ∧
        (if (a.id == ex.id) = true then res.answer else a).questionId = a.questionId := by
      intro a ha
      by_cases h : (a.id == ex.id) = true
      · have hae : a = ex := by
          refine List.inj_on_of_nodup_map hnd ha hexmem ?_
          simpa using h
        subst hae
        simp [h, hkey1, hkey2, hexpred.1, hexpred.2]
      · simp [h]
    refine ⟨?_, ?_, ?_⟩
    · rw [hua, List.map_map]
      have : db.userAnswers.map
          ((fun a => a.id) ∘ fun a => if (a.id == ex.id) = true then res.answer else a) =
          db.userAnswers.map (·.id) :=
        List.map_congr_left (fun a ha => hfid a ha)
      rw [this]
      exact hnd
    · intro b hb
      rw [hua] at hb
      obtain ⟨a, ha, rfl⟩ := List.mem_map.mp hb
      rw [hnid, hfid a ha]
      exact hbound a ha
    · rw [hua, List.pairwise_map]
      refine hpw.imp_of_mem ?_
      intro a b ha hb hr
      obtain ⟨h1, h2⟩ := hfkey a ha
      obtain ⟨h3, h4⟩ := hfkey b hb
      rw [h1, h2, h3, h4]
      exact hr
  · have hnone := List.find?_eq_none.mp hex
    refine ⟨?_, ?_, ?_⟩
    · rw [hua, List.map_append]
      refine List.Nodup.append hnd (by simp) ?_
      intro x hx hx2
      simp only [List.map_cons, List.map_nil, List.mem_singleton] at hx2
      obtain ⟨a, ha, rfl⟩ := List.mem_map.mp hx
      have hlt := hbound a ha
      rw [hx2, hid] at hlt
      exact absurd hlt (lt_irrefl _)
    · intro b hb
      rw [hua] at hb
      rcases List.mem_append.mp hb with h | h
      · rw [hnid]
        exact Nat.lt_succ_of_lt (hbound b h)
      · simp only [List.mem_singleton] at h
        subst h
        rw [hnid, hid]
        omega
    · rw [hua, List.pairwise_append]
      refine ⟨hpw, by simp, ?_⟩
      intro a ha b hb
      simp only [List.mem_singleton] at hb
      subst hb
      have hnp := hnone a ha
      rw [hkey1, hkey2]
      simp only [Bool.and_eq_true, beq_iff_eq, not_and_or] at hnp
      exact hnp

lemma submitAnswer_mem {db : DB} {now : Nat} {d : SubmitAnswerData}
    {db' : DB} {res : SubmitAnswerResult}
    (hok : submitAnswer db now d = .ok (db', res)) :
    res.answer ∈ db'.userAnswers := by
  obtain ⟨attempt, question, hatt, hst, hq, hbind, hic, hnmg, hrow, hatts, hupd⟩ :=
    submitAnswer_ok_cases hok
  rcases hupd with ⟨ex, hex, _hid, hua, -⟩ | ⟨hex, _hid, hua, -⟩
  · rw [hua]
    refine List.mem_map.mpr ⟨ex, List.mem_of_find?_eq_some hex, ?_⟩
    simp
  · rw [hua]
    simp

lemma submitAnswer_upsert_unique {db : DB} {now : Nat} {d : SubmitAnswerData}
    {db' : DB} {res : SubmitAnswerResult}
    (hwf : AnswersWF db) (hok : submitAnswer db now d = .ok (db', res)) :
    db'.userAnswers.filter
      (fun a => a.attemptId == d.attemptId && a.questionId == d.questionId) = [res.answer] ∧
    db'.userAnswers.find?
      (fun a => a.attemptId == d.attemptId && a.questionId == d.questionId) =
        some res.answer := by
  have hwf' := submitAnswer_preserves_wf hwf hok
  obtain ⟨attempt, question, hatt, hst, hq, hbind, hic, hnmg, hrow, hatts, hupd⟩ :=
    submitAnswer_ok_cases hok
  have hkey1 : res.answer.attemptId = d.attemptId := by
    rw [hrow]
    simp [answerRow]
  have hkey2 : res.answer.questionId = d.questionId := by
    rw [hrow]
    simp [answerRow]
  have hpred : (res.answer.attemptId == d.attemptId &&
      res.answer.questionId == d.questionId) = true := by
    simp [hkey1, hkey2]
  have hmemf : res.answer ∈ db'.userAnswers.filter
      (fun a => a.attemptId == d.attemptId && a.questionId == d.questionId) :=
    List.mem_filter.mpr ⟨submitAnswer_mem hok, hpred⟩
  have hlen := count_le_one_of_pairwise d.attemptId d.questionId hwf'.2.2
  have hfil : db'.userAnswers.filter
      (fun a => a.attemptId == d.attemptId && a.questionId == d.questionId) =
        [res.answer] := by
    rcases hf : db'.userAnswers.filter
        (fun a => a.attemptId == d.attemptId && a.questionId == d.questionId) with _ | ⟨x, t⟩
    · rw [hf] at hmemf
      simp at hmemf
    · rw [hf] at hmemf hlen
      simp only [List.length_cons] at hlen
      have ht : t = [] := List.eq_nil_of_length_eq_zero (by omega)
      subst ht
      simp only [List.mem_singleton] at hmemf
      rw [hf, hmemf]
  exact ⟨hfil, find?_eq_of_filter_singleton hfil⟩

lemma submitSeq_wf {db : DB} (hwf : AnswersWF db) (ds : List (Nat × SubmitAnswerData)) :
    AnswersWF (submitSeq db ds) := by
  induction ds generalizing db with
  | nil => exact hwf
  | cons p t ih =>
    show AnswersWF (submitSeq (match submitAnswer db p.1 p.2 with
      | .ok q => q.1
      | .error _ => db) t)
    cases hsp : submitAnswer db p.1 p.2 with
    | ok q =>
      exact ih (submitAnswer_preserves_wf hwf hsp)
    | error e =>
      exact ih hwf

/-- C9 (confirmed): starting from a store satisfying the answers table's
well-formedness (unique ids, fresh serial, unique (attemptId, questionId)
key — the schema's unique index), any sequence of SubmitAnswer calls
leaves at most one answer row per (attemptId, questionId); and a
successful SubmitAnswer leaves exactly one row for its key — the row it
returns, which carries the latest submission's selection and grade, so
later submissions replace earlier ones rather than adding rows. -/
theorem C9_answer_upsert {db : DB} (hwf : AnswersWF db) :
    (∀ ds aid qid, ((submitSeq db ds).userAnswers.filter
        (fun a => a.attemptId == aid && a.questionId == qid)).length ≤ 1) ∧
    (∀ now d db' res, submitAnswer db now d = .ok (db', res) →
      db'.userAnswers.filter (fun a => a.attemptId == d.attemptId &&
        a.questionId == d.questionId) = [res.answer] ∧
      db'.userAnswers.find? (fun a => a.attemptId == d.attemptId &&
        a.questionId == d.questionId) = some res.answer ∧
      res.answer.isCorrect = res.isCorrect ∧
      res.answer.selectedOptionId = d.selectedOptionId ∧
      res.answer.selectedOptionIds = d.selectedOptionIds) := by
  constructor
  · intro ds aid qid
    exact count_le_one_of_pairwise aid qid (submitSeq_wf hwf ds).2.2
  · intro now d db' res hok
    obtain ⟨hfil, hfind⟩ := submitAnswer_upsert_unique hwf hok
    obtain ⟨attempt, question, -, -, -, -, hic, -, hrow, -, -⟩ := submitAnswer_ok_cases hok
    refine ⟨hfil, hfind, ?_, ?_, ?_⟩
    · rw [hrow, hic]
      simp [answerRow]
    · rw [hrow]
      simp [answerRow]
    · rw [hrow]
      simp [answerRow]

theorem C9_witness :
    AnswersWF dbW1 ∧
    ((∀ ds aid qid, ((submitSeq dbW1 ds).userAnswers.filter
        (fun a => a.attemptId == aid && a.questionId == qid)).length ≤ 1) ∧
      (∀ now d db' res, submitAnswer dbW1 now d = .ok (db', res) →
        db'.userAnswers.filter (fun a => a.attemptId == d.attemptId &&
          a.questionId == d.questionId) = [res.answer] ∧
        db'.userAnswers.find? (fun a => a.attemptId == d.attemptId &&
          a.questionId == d.questionId) = some res.answer ∧
        res.answer.isCorrect = res.isCorrect ∧
        res.answer.selectedOptionId = d.selectedOptionId ∧
        res.answer.selectedOptionIds = d.selectedOptionIds)) :=
  ⟨⟨by decide, by decide, by decide⟩,
    C9_answer_upsert ⟨by decide, by decide, by decide⟩⟩

/-- C10 (amended): lifecycle invariants at the operation level.
SubmitAnswer never touches any attempt row's status; it fails whenever
the target attempt is not in_progress (so answer rows are written only
while the owning attempt is in progress — on error the state-passing
model returns no new store, matching the service throwing before any
write). SubmitExam leaves the answers table untouched and only succeeds
from in_progress. The abandon endpoint (controller + service), on an
attempt that is not in_progress, changes nothing and acknowledges
success — but returns no attempt data, not the current state, which is
where the frozen claim fails; on an in_progress attempt it stamps
exactly the matching row abandoned. -/
theorem C10_lifecycle :
    (∀ db now d db' res, submitAnswer db now d = .ok (db', res) →
      db'.examAttempts = db.examAttempts) ∧
    (∀ db now d attempt,
      db.examAttempts.find? (fun a => a.id == d.attemptId) = some attempt →
      attempt.status ≠ .in_progress → (submitAnswer db now d).isOk = false) ∧
    (∀ db now aid db' r, submitExam db now aid = .ok (db', r) →
      db'.userAnswers = db.userAnswers ∧
      (∃ attempt, db.examAttempts.find? (fun a => a.id == aid) = some attempt ∧
        attempt.status = .in_progress)) ∧
    (∀ db now aid uid details, getAttemptById db aid = some details →
      details.attempt.userId = uid →
      details.attempt.status ≠ .in_progress →
      abandonAttemptController db now aid uid = .ok (db, none)) ∧
    (∀ db now aid uid details, getAttemptById db aid = some details →
      details.attempt.userId = uid →
      details.attempt.status = .in_progress →
      abandonAttemptController db now aid uid = .ok (abandonAttempt db now aid)) := by
  refine ⟨?_, ?_, ?_, ?_, ?_⟩
  · intro db now d db' res hok
    obtain ⟨-, -, -, -, -, -, -, -, -, hatts, -⟩ := submitAnswer_ok_cases hok
    exact hatts
  · intro db now d attempt hatt hst
    unfold submitAnswer
    simp only [hatt]
    rw [if_pos hst]
    rfl
  · intro db now aid db' r hok
    unfold submitExam at hok
    split at hok
    · simp at hok
    next attempt hatt =>
      split at hok
      · simp at hok
      next hst =>
        split at hok
        · simp at hok
        next exam hexam =>
          split at hok
          · simp at hok
          next s hs =>
            rw [Except.ok.injEq, Prod.mk.injEq] at hok
            obtain ⟨hdb, -⟩ := hok
            subst hdb
            exact ⟨rfl, attempt, hatt, by simpa using hst⟩
  · intro db now aid uid details hdet huid hterm
    unfold abandonAttemptController
    simp only [hdet]
    rw [if_neg (by simp [huid])]
    rw [if_neg hterm]
  · intro db now aid uid details hdet huid hprog
    unfold abandonAttemptController
    simp only [hdet]
    rw [if_neg (by simp [huid])]
    rw [if_pos hprog]

/-- C10, counterexample.  The store holds a completed (terminal) attempt,
so a current state exists; the abandon endpoint acknowledges success and
changes nothing, but its response carries no attempt data at all (the
controller returns only a message in this branch) — it does not return
the current state as the claim asserts. -/
theorem C10_counterexample :
    (getAttemptById dbW6 1).isSome = true ∧
    dbW6.examAttempts.map (·.status) = [AttemptStatus.completed] ∧
    abandonAttemptController dbW6 9 1 7 = .ok (dbW6, none) ∧
    (dbW6.examAttempts.find? (fun a => a.id == (1 : Nat))).isSome = true := by
  decide

theorem C10_witness :
    (getAttemptById dbW6 1 =
        some ⟨⟨1, 1, 7, .completed, 0, some 5, some 5, some 0, some 10000, 1, 1, 1, 0, 0,
          some true, none, 0, none⟩,
          some ⟨1, true, 70, 1, 1, none, some 1, false, .after_submit, false⟩, []⟩ ∧
      (7 : Nat) = 7 ∧
      AttemptStatus.completed ≠ AttemptStatus.in_progress) ∧
    abandonAttemptController dbW6 9 1 7 = .ok (dbW6, none) :=
  ⟨⟨by decide, rfl, by decide⟩,
    C10_lifecycle.2.2.2.1 dbW6 9 1 7
      ⟨⟨1, 1, 7, .completed, 0, some 5, some 5, some 0, some 10000, 1, 1, 1, 0, 0,
        some true, none, 0, none⟩,
        some ⟨1, true, 70, 1, 1, none, some 1, false, .after_submit, false⟩, []⟩
      (by decide) (by decide) (by decide)⟩
